import Mathlib

/-!
Verification of the flow orchestrator (src/orchestrator.py and
src/openai_utils.py) against its specification.

The Python code is shallowly embedded as follows.

* Filesystem paths are lists of path segments (`FsPath`), relative to the
  run's root; `curr_dir / "x"` becomes `currDir ++ ["x"]`.
* External collaborators — the `subprocess` module, the OpenAI client, the
  codex CLI, `json.loads` / `json.dumps`, file reads, and the random
  directory names produced by `tempfile.mkdtemp` — are components of an
  `Env` record.  Each component returns the outcome of the corresponding
  external call (`Except ExcInfo _` models "returns or raises").
* Threads are modelled by a sequential interleaving: the branch workers
  spawned for an `array` step run in fan-out order, and their shared-state
  updates (the `results` list, the `cancelled` flag, `flow_failed`, the
  `step_counts` vector) are composed in that order.  The readings of the
  one-way cancellation latch (`cancel_event.is_set()`, polled at branch
  entry and at worker entry) depend on real-time scheduling, so they too
  are supplied by the environment (`Env.cancelAt`, `Env.cancelWorker`).
* `step_counts` mutations are recorded as an event trace
  (`(true, i)` = increment of `step_counts[i]` under the lock,
  `(false, i)` = decrement), so that invariants about the counters can be
  stated over every intermediate state.
-/

/-- A filesystem path as a list of segments. -/
abbrev FsPath := List String

/-- One branch result of `_run_flow`: `(output_text, path, branch_dir)`. -/
abbrev BranchResult := String × Option FsPath × FsPath

/-- A JSON value as returned by `json.loads`. -/
inductive JsonValue where
  | null
  | bool (b : Bool)
  | num (n : Int)
  | str (s : String)
  | arr (items : List JsonValue)
  | obj (fields : List (String × JsonValue))

/-- What the orchestrator extracts from a raised Python exception
(`run_from`'s `except` clause in src/orchestrator.py): the type name, the
message, and the optional `returncode` / `stderr` attributes. -/
structure ExcInfo where
  excName : String
  msg : String
  returncode? : Option Int := none
  stderrText? : Option String := none

/-- A step specification: the JSON dictionary for one step, restricted to
the keys the repository's configurations use.  `run_from` reads `type`,
`prompt`, `prmpt_file`, `cmd`, `array` and `web_search`; the remaining keys
(`name`, `inputs`, `exit_on_empty_response`) may be present in a config but
are shown below to be ignored by the engine in src/. -/
structure Step where
  type? : Option String := none
  name? : Option String := none
  prompt : String := ""
  prmptFile? : Option String := none
  cmd? : Option String := none
  array : Bool := false
  webSearch : Bool := false
  exitOnEmptyResponse : Bool := false
  inputs? : Option (List String) := none

/-- The environment: external collaborators of `run_from`, plus the
schedule of cancellation-latch readings (which in the Python code depend on
thread timing). -/
structure Env where
  /-- `cancel_event.is_set()` as read at `run_from` entry for `(dir, idx)`. -/
  cancelAt : FsPath → Nat → Bool
  /-- `cancel_event.is_set()` as read at a branch worker's entry. -/
  cancelWorker : FsPath → Bool
  /-- `Path(p).read_text()`. -/
  readFile : String → String
  /-- `subprocess.run(cmd, input=prev_output, shell=True, check=True)`:
  arguments are the step's directory and index, the shell string, and the
  stdin text; returns captured stdout or the raised exception. -/
  runCmd : FsPath → Nat → String → String → Except ExcInfo String
  /-- `call_openai_api` followed by the `output[0].content[0].text`
  extraction: prompt and `web_search` in, primary text out. -/
  runOpenai : FsPath → Nat → String → Bool → Except ExcInfo String
  /-- `run_codex_cli(prompt, workdir, curr_dir)`: final message text and the
  path of the file holding it. -/
  runCodex : FsPath → Nat → String → Except ExcInfo (String × FsPath)
  /-- `json.loads`; `none` means the parse raised. -/
  parse : String → Option JsonValue
  /-- `json.dumps`. -/
  dumps : JsonValue → String
  /-- The name `tempfile.mkdtemp(prefix="run_", dir=errors_base)` picks. -/
  errName : FsPath → String

/-- Python `str(x)` for `x` an optional string (`str(None) = "None"`), as
used in the f-string `f"step_{idx}_{step_type}.txt"`. -/
def pyStr : Option String → String
  | some s => s
  | none => "None"

/-- Python truthiness of an optional string: `None` and `""` are falsy. -/
def optTruthy : Option String → Bool
  | some s => s != ""
  | none => false

/-- The characters Python's `str.strip()` removes (ASCII whitespace). -/
def isPySpace (c : Char) : Bool :=
  c == ' ' || c == '\t' || c == '\n' || c == '\r' || c == '\x0b' || c == '\x0c'

/-- Python's `str.strip()`: drop leading and trailing whitespace. -/
def pyStrip (s : String) : String :=
  String.mk (((s.data.dropWhile isPySpace).reverse.dropWhile isPySpace).reverse)

/-- Prompt assembly at the top of `run_from`'s `try` block
(src/orchestrator.py lines 79-84):
`prompt = step.get("prompt", "")`; if `prmpt_file` is truthy and `prompt`
is empty, read the file; if `prev_output` is truthy, append
`"\n" + prev_output` and strip.  Note that no other step key — in
particular not `inputs` — is consulted. -/
def assemblePrompt (env : Env) (step : Step) (prevOutput : String) : String :=
  let prompt := step.prompt
  let prompt :=
    if optTruthy step.prmptFile? && (prompt == "") then
      env.readFile (step.prmptFile?.getD "")
    else prompt
  if prevOutput != "" then pyStrip (prompt ++ "\n" ++ prevOutput) else prompt

/-- `f"step_{idx}_{suffix}"`. -/
def stepFileName (idx : Nat) (suffix : String) : String :=
  "step_" ++ toString idx ++ "_" ++ suffix

/-- `curr_dir / "errors"`. -/
def errorsDir (currDir : FsPath) : FsPath := currDir ++ ["errors"]

/-- The error file `run_from` quarantines a failure into:
`curr_dir/errors/run_<rand>/<fname>` (`tempfile.mkdtemp(prefix="run_")`
under the errors base picks the random component). -/
def errFilePath (env : Env) (currDir : FsPath) (fname : String) : FsPath :=
  errorsDir currDir ++ [env.errName (errorsDir currDir), fname]

/-- The three step backends of `run_from`'s dispatch chain. -/
inductive Backend where
  | codex
  | openai
  | shell

/-- `run_from`'s dispatch (src/orchestrator.py lines 86-138): `type ==
"codex"`, then `type == "openai"`, then — by key presence, not by type —
`"cmd" in step`; anything else raises `ValueError("Unknown step type")`. -/
def dispatch (step : Step) : Option Backend :=
  if step.type? == some "codex" then some Backend.codex
  else if step.type? == some "openai" then some Backend.openai
  else if step.cmd?.isSome then some Backend.shell
  else none

/-- The body of `run_from`'s `try` block: execute the step via its backend
and produce `(output, path)`, or the exception the `except` clause will
quarantine.  For `openai`, `path = curr_dir/step_{idx}_openai.txt`; for
`cmd`, `path = None`; for `codex`, the adapter's final-message path. -/
def stepBody (env : Env) (idx : Nat) (step : Step) (prompt prevOutput : String)
    (currDir : FsPath) : Except ExcInfo (String × Option FsPath) :=
  match dispatch step with
  | some Backend.codex =>
    match env.runCodex currDir idx prompt with
    | .ok (out, p) => .ok (out, some p)
    | .error e => .error e
  | some Backend.openai =>
    match env.runOpenai currDir idx prompt step.webSearch with
    | .ok out => .ok (out, some (currDir ++ [stepFileName idx "openai.txt"]))
    | .error e => .error e
  | some Backend.shell =>
    match env.runCmd currDir idx (step.cmd?.getD "") prevOutput with
    | .ok out => .ok (out, none)
    | .error e => .error e
  | none =>
    .error { excName := "ValueError", msg := "Unknown step type: " ++ pyStr step.type? }

/-- `item_str = json.dumps(item) if not isinstance(item, str) else item`. -/
def serializeItem (env : Env) : JsonValue → String
  | JsonValue.str s => s
  | j => env.dumps j

/-- The outcome of one `run_from` walk: the returned branch results (or
`Except.error ()` when `FlowCancelled` propagates out), whether
`mark_failed()` was called during the walk, and the `step_counts` event
trace ((true, i) = increment, (false, i) = decrement). -/
structure RunOut where
  res : Except Unit (List BranchResult)
  failed : Bool
  events : List (Bool × Nat)

/-- The `cancelled` flag a branch worker leaves behind: set when the worker
saw the latch at entry (`none`) or caught `FlowCancelled` from its walk. -/
def branchCancelled : Option RunOut → Bool
  | none => true
  | some r => match r.res with | .error _ => true | .ok _ => false

/-- Whether a branch worker contributed to `flow_failed`: `mark_failed()`
runs when the worker saw the latch at entry, when it caught
`FlowCancelled`, and whenever the walk itself marked a failure. -/
def branchFailed : Option RunOut → Bool
  | none => true
  | some r => (match r.res with | .error _ => true | .ok _ => false) || r.failed

/-- The results a branch worker appended to the shared list (nothing when
it was cancelled). -/
def branchResults : Option RunOut → List BranchResult
  | some { res := .ok rs, .. } => rs
  | _ => []

/-- The counter events a branch worker's walk produced. -/
def branchEvents : Option RunOut → List (Bool × Nat)
  | some r => r.events
  | none => []

/-- The join of an `array` step's branch workers, given each worker's
outcome in branch order (`none` = the worker saw the latch at entry and
returned at once): if any worker was cancelled, `FlowCancelled` is
re-raised after the join; otherwise the workers' result lists, collected
into the shared `results`, are returned.  `flow_failed` accumulates every
worker's `mark_failed()` calls, and the counter trace is the step's own
increment/decrement followed by the workers' traces in the sequential
interleaving. -/
def fanOut (runs : List (Option RunOut)) (idx : Nat) : RunOut :=
  { res := if runs.any branchCancelled then .error ()
           else .ok (runs.foldl (fun acc o => acc ++ branchResults o) []),
    failed := runs.any branchFailed,
    events := (true, idx) :: (false, idx) ::
      runs.foldl (fun acc o => acc ++ branchEvents o) [] }

/-- `run_from(idx, prev_output, prev_path, curr_dir)` of `_run_flow`
(src/orchestrator.py lines 64-254), with `rest` the suffix
`config[idx:]` of the step list.  Control flow mirrors the source: the
cancellation check, the terminal case, counter increment, the `try` body,
the `except` quarantine, the `finally` decrement, then the `array` fan-out
or the plain recursion. -/
def runFrom (env : Env) (idx : Nat) (rest : List Step) (prevOutput : String)
    (prevPath : Option FsPath) (currDir : FsPath) : RunOut :=
  if env.cancelAt currDir idx then
    { res := .error (), failed := false, events := [] }
  else
    match rest with
    | [] => { res := .ok [(prevOutput, prevPath, currDir)], failed := false, events := [] }
    | step :: rest =>
      let prompt := assemblePrompt env step prevOutput
      match stepBody env idx step prompt prevOutput currDir with
      | .error _e =>
        { res := .ok [("", some (errFilePath env currDir
              (stepFileName idx (pyStr step.type? ++ ".txt"))), currDir)],
          failed := true, events := [(true, idx), (false, idx)] }
      | .ok (output, path) =>
        if step.array then
          match env.parse output with
          | some (JsonValue.arr items) =>
            fanOut (items.enum.map (fun p =>
              if env.cancelWorker (currDir ++ ["branch_" ++ toString p.1]) then none
              else some (runFrom env (idx + 1) rest (serializeItem env p.2) none
                (currDir ++ ["branch_" ++ toString p.1])))) idx
          | _ =>
            { res := .ok [("", some (errFilePath env currDir
                  (stepFileName idx "array.txt")), currDir)],
              failed := true, events := [(true, idx), (false, idx)] }
        else
          let r := runFrom env (idx + 1) rest output path currDir
          { res := r.res, failed := r.failed,
            events := (true, idx) :: (false, idx) :: r.events }

/-- The outcome of `_run_flow` as its caller `worker` observes it:
the results and failure flag it returns, whether it raised
`FlowCancelled`, whether `flow_failed.txt` was written into the flow
directory, and the counter event trace. -/
structure FlowOutcome where
  results : List BranchResult
  failed : Bool
  cancelled : Bool
  markerWritten : Bool
  events : List (Bool × Nat)

/-- `_run_flow(config, ..., flow_dir)` (src/orchestrator.py lines 256-266):
run the walk from step 0; on `FlowCancelled` mark the flow failed, write
`flow_failed.txt` and re-raise; otherwise write the marker iff the walk
marked a failure. -/
def runFlow (env : Env) (cfg : List Step) (flowDir : FsPath) : FlowOutcome :=
  let r := runFrom env 0 cfg "" none flowDir
  match r.res with
  | .error _ =>
    { results := [], failed := true, cancelled := true, markerWritten := true,
      events := r.events }
  | .ok rs =>
    { results := rs, failed := r.failed, cancelled := false,
      markerWritten := r.failed, events := r.events }

/-- `record_finished`'s line (src/orchestrator.py lines 495-500):
`status` alone when the comma-joined paths are empty, else
`f"{status} {parts}"`. -/
def finishedLine (status : String) (interpolatedPaths : List String) : String :=
  if String.intercalate ", " interpolatedPaths == "" then status
  else status ++ " " ++ String.intercalate ", " interpolatedPaths

/-- What one `worker` call (src/orchestrator.py lines 402-461) contributes
to the supervisor's shared state. -/
structure WorkerRecord where
  /-- The line appended to `finished.txt`. -/
  line : String
  /-- Whether `failed_flows` was incremented. -/
  countsAsFailedFlow : Bool
  /-- The entry appended to `failed_flow_paths`, if any. -/
  failedPathsEntry : Option (List String)
  /-- Extension of the shared `results` list. -/
  results : List BranchResult

/-- `worker`'s bookkeeping: on `FlowCancelled` it records a `failed` line
and bumps `finished` only; otherwise it extends `results`, and on a failed
flow bumps `failed_flows` and (when `interpolated_paths` is non-empty)
appends the paths to `failed_flow_paths`. -/
def workerRecord (o : FlowOutcome) (interpolatedPaths : List String) : WorkerRecord :=
  if o.cancelled then
    { line := finishedLine "failed" interpolatedPaths,
      countsAsFailedFlow := false, failedPathsEntry := none, results := [] }
  else
    { line := finishedLine (if o.failed then "failed" else "done") interpolatedPaths,
      countsAsFailedFlow := o.failed,
      failedPathsEntry :=
        if o.failed && interpolatedPaths != [] then some interpolatedPaths else none,
      results := o.results }

/-- One launched flow: its expanded config, its `interpolated_paths`, and
its `flow_dir`. -/
structure FlowSpec where
  cfg : List Step
  interpolatedPaths : List String
  dir : FsPath

/-- The supervisor's shared state after the launched flows finish. -/
structure RunSummary where
  finishedLines : List String
  failedFlows : Nat
  failedFlowPaths : List (List String)
  results : List BranchResult
  events : List (Bool × Nat)

/-- `orchestrate`'s bookkeeping over the launched flows, one worker after
another (the sequential interleaving of the worker threads): each worker's
record is appended in completion order. -/
def orchestrateBook (env : Env) : List FlowSpec → RunSummary
  | [] =>
    { finishedLines := [], failedFlows := 0, failedFlowPaths := [],
      results := [], events := [] }
  | f :: flows =>
    let o := runFlow env f.cfg f.dir
    let w := workerRecord o f.interpolatedPaths
    let s := orchestrateBook env flows
    { finishedLines := w.line :: s.finishedLines,
      failedFlows := (if w.countsAsFailedFlow then 1 else 0) + s.failedFlows,
      failedFlowPaths :=
        (match w.failedPathsEntry with | some p => [p] | none => []) ++ s.failedFlowPaths,
      results := w.results ++ s.results,
      events := o.events ++ s.events }

/-- The lines of `run_dir/failed_files` (src/orchestrator.py lines
537-542): written only when `failed_flows` is non-zero, one
comma-joined line per `failed_flow_paths` entry; an absent manifest has no
lines. -/
def failedFilesLines (s : RunSummary) : List String :=
  if s.failedFlows == 0 then [] else s.failedFlowPaths.map (String.intercalate ",")

/-- A line of `finished.txt` "starts with `failed`". -/
def StartsWithFailed (line : String) : Prop := ∃ t, line = "failed" ++ t

/-- Python `x or dflt` for an optional string `x`. -/
def pyOrStr (v : Option String) (dflt : String) : String :=
  match v with
  | some s => if s != "" then s else dflt
  | none => dflt

/-- The keyword arguments `call_openai_api` assembles for
`client.responses.create` (src/openai_utils.py lines 203-213).  A tools
entry is recorded by the string bound to its `"type"` key (the source
builds the literal dictionary `{"type": "web_search"}`). -/
structure OpenAIRequest where
  model : String
  input : String
  reasoning? : Option String := none
  serviceTier? : Option String := none
  tools? : Option (List String) := none

/-- `request_args` as built by `call_openai_api`:
`model or "gpt-4o-mini"`, `input=prompt`, `reasoning={"effort": ...}` when
`reasoning_effort` is truthy, `service_tier` when truthy, and
`tools=[{"type": "web_search"}]` when `web_search` is true. -/
def buildOpenAIRequest (prompt : String) (webSearch : Bool)
    (model? reasoningEffort? serviceTier? : Option String) : OpenAIRequest :=
  { model := pyOrStr model? "gpt-4o-mini"
    input := prompt
    reasoning? := if optTruthy reasoningEffort? then reasoningEffort? else none
    serviceTier? := if optTruthy serviceTier? then serviceTier? else none
    tools? := if webSearch then some ["web_search"] else none }

/-- The files `run_codex_cli` writes after the process exits. -/
structure CodexWrites where
  finalMessageWritten? : Option String := none
  timeWritten? : Option String := none

/-- The tail of one `run_codex_cli` attempt after `proc.wait` returns
(src/openai_utils.py lines 146-171): non-zero exit raises (stderr, or the
return code when stderr is empty, becomes the message); on zero exit,
prefer `final_message.txt` when it exists, else copy `stdout.txt` into it
and write `time.txt` as `f"{returncode}\n{duration}\n"`, else raise
`FileNotFoundError`.  `finalMessage?` / `stdout?` are the contents of the
two files when they exist; the duration is passed as its decimal text. -/
def codexCompletion (tmpdir : FsPath) (returncode : Int) (stderrText : String)
    (durationStr : String) (finalMessage? stdout? : Option String) :
    Except ExcInfo (String × FsPath × CodexWrites) :=
  if returncode != 0 then
    .error { excName := "Exception",
             msg := if stderrText != "" then stderrText else toString returncode,
             returncode? := some returncode,
             stderrText? := some (if stderrText != "" then stderrText else toString returncode) }
  else
    match finalMessage? with
    | some m => .ok (m, tmpdir ++ ["final_message.txt"], {})
    | none =>
      match stdout? with
      | some s =>
        .ok (s, tmpdir ++ ["final_message.txt"],
          { finalMessageWritten? := some s,
            timeWritten? := some (toString returncode ++ "\n" ++ durationStr ++ "\n") })
      | none =>
        .error { excName := "FileNotFoundError",
                 msg := "Codex CLI did not produce a final message file or stdout output" }

/-- The only validation `orchestrate` performs at entry
(src/orchestrator.py lines 386-387), before the run directory is created at
line 489: `max_flow_failures < 1` raises `ValueError`.  The function's
parameter list (lines 336-347) has no `max_flows` parameter, so there is no
corresponding field or check here. -/
def orchestrateEntryCheck (maxFlowFailures : Int) : Except String Unit :=
  if maxFlowFailures < 1 then .error "max_flow_failures must be at least 1"
  else .ok ()

/-- An inert environment: no cancellation, every external call succeeds
with empty output.  Concrete test environments below override fields. -/
def trivEnv : Env :=
  { cancelAt := fun _ _ => false
    cancelWorker := fun _ => false
    readFile := fun _ => ""
    runCmd := fun _ _ _ _ => .ok ""
    runOpenai := fun _ _ _ _ => .ok ""
    runCodex := fun _ _ _ => .ok ("", [])
    parse := fun _ => none
    dumps := fun _ => ""
    errName := fun _ => "run_tmp" }

/-- An environment in which no reading of the cancellation latch ever
observes it set (the schedule of every run that finishes without the
failure budget tripping). -/
def NoCancel (env : Env) : Prop :=
  (∀ d i, env.cancelAt d i = false) ∧ (∀ d, env.cancelWorker d = false)

/-- The branch results of a walk, empty when it raised `FlowCancelled`. -/
def resultsOf (r : RunOut) : List BranchResult :=
  match r.res with
  | .ok rs => rs
  | .error _ => []

/-! ### Helper lemmas -/

theorem startsWithFailed_head {line : String} (h : StartsWithFailed line) :
    line.data.head? = some 'f' := by
  obtain ⟨t, rfl⟩ := h
  rfl

theorem startsWithFailed_finishedLine (paths : List String) :
    StartsWithFailed (finishedLine "failed" paths) := by
  unfold finishedLine
  split
  · exact ⟨"", rfl⟩
  · exact ⟨" " ++ String.intercalate ", " paths, (String.append_assoc _ _ _)⟩

theorem not_startsWithFailed_doneLine (paths : List String) :
    ¬ StartsWithFailed (finishedLine "done" paths) := by
  intro h
  have hh := startsWithFailed_head h
  unfold finishedLine at hh
  split at hh
  · exact absurd hh (by decide)
  · have hd : ("done" ++ " " ++ String.intercalate ", " paths).data.head? = some 'd' := rfl
    rw [hd] at hh
    exact absurd (Option.some.inj hh) (by decide)

theorem foldl_append_eq {α β : Type} (f : α → List β) (l : List α) (acc : List β) :
    l.foldl (fun a o => a ++ f o) acc = acc ++ (l.map f).flatten := by
  induction l generalizing acc with
  | nil => simp
  | cons x xs ih => simp [ih, List.append_assoc]

/-- The shape of every `step_counts` event trace in the sequential
interleaving: each step's increment is matched by its decrement before any
later event. -/
inductive PairSeq : List (Bool × Nat) → Prop where
  | nil : PairSeq []
  | pair (i : Nat) {evs : List (Bool × Nat)} (h : PairSeq evs) :
      PairSeq ((true, i) :: (false, i) :: evs)

theorem PairSeq.append {a b : List (Bool × Nat)} (ha : PairSeq a) (hb : PairSeq b) :
    PairSeq (a ++ b) := by
  induction ha with
  | nil => simpa using hb
  | pair i _ ih => simpa using PairSeq.pair i ih

theorem PairSeq.flatten {L : List (List (Bool × Nat))} (h : ∀ l ∈ L, PairSeq l) :
    PairSeq L.flatten := by
  induction L with
  | nil => exact PairSeq.nil
  | cons x xs ih =>
    rw [List.flatten_cons]
    exact PairSeq.append (h x (by simp)) (ih fun l hl => h l (by simp [hl]))

/-- The contribution of one counter event to `step_counts[i]`. -/
def eventDelta (i : Nat) (e : Bool × Nat) : Int :=
  if e.2 == i then (if e.1 then 1 else -1) else 0

/-- The value of `step_counts[i]` after a trace, starting from 0. -/
def netCount (evs : List (Bool × Nat)) (i : Nat) : Int :=
  (evs.map (eventDelta i)).sum

theorem netCount_nil (i : Nat) : netCount [] i = 0 := rfl

theorem netCount_cons (e : Bool × Nat) (evs : List (Bool × Nat)) (i : Nat) :
    netCount (e :: evs) i = eventDelta i e + netCount evs i := by
  simp [netCount]

theorem PairSeq.netCount_eq_zero {evs : List (Bool × Nat)} (h : PairSeq evs)
    (i : Nat) : netCount evs i = 0 := by
  induction h with
  | nil => rfl
  | pair j _ ih =>
    rw [netCount_cons, netCount_cons, ih]
    simp [eventDelta]
    split <;> simp

theorem PairSeq.netCount_take_nonneg {evs : List (Bool × Nat)} (h : PairSeq evs) :
    ∀ (n i : Nat), 0 ≤ netCount (evs.take n) i := by
  induction h with
  | nil => intro n i; simp [netCount]
  | pair j hp ih =>
    intro n i
    match n with
    | 0 => simp [netCount]
    | 1 =>
      rw [List.take_succ_cons, List.take_zero, netCount_cons, netCount_nil]
      simp [eventDelta]
      split <;> simp
    | n + 2 =>
      rw [List.take_succ_cons, List.take_succ_cons, netCount_cons, netCount_cons]
      have := ih n i
      simp only [eventDelta]
      split <;> simp <;> omega

/-- Every walk's counter trace pairs each increment with its decrement:
`step_counts[idx] += 1` runs right before the step's `try` block and the
matching `-= 1` runs in its `finally`, on success, failure and
cancellation alike. -/
theorem runFrom_events_pairSeq (env : Env) :
    ∀ (rest : List Step) (idx : Nat) (prevOutput : String)
      (prevPath : Option FsPath) (currDir : FsPath),
      PairSeq (runFrom env idx rest prevOutput prevPath currDir).events := by
  intro rest
  induction rest with
  | nil =>
    intro idx prev pp dir
    by_cases hc : env.cancelAt dir idx <;> simp [runFrom, hc] <;> exact PairSeq.nil
  | cons step rest ih =>
    intro idx prev pp dir
    by_cases hc : env.cancelAt dir idx
    · simp [runFrom, hc]; exact PairSeq.nil
    · cases hsb : stepBody env idx step (assemblePrompt env step prev) prev dir with
      | error e =>
        simp [runFrom, hc, hsb]
        exact PairSeq.pair idx PairSeq.nil
      | ok op =>
        obtain ⟨output, path⟩ := op
        by_cases ha : step.array
        · cases hp : env.parse output with
          | none =>
            simp [runFrom, hc, hsb, ha, hp]
            exact PairSeq.pair idx PairSeq.nil
          | some j =>
            cases j with
            | arr items =>
              simp [runFrom, hc, hsb, ha, hp, fanOut, foldl_append_eq]
              refine PairSeq.pair idx (PairSeq.flatten ?_)
              intro l hl
              obtain ⟨p, hp2, rfl⟩ := List.mem_map.mp hl
              by_cases hw : env.cancelWorker (dir ++ ["branch_" ++ toString p.1])
              · simp [hw, branchEvents]
                exact PairSeq.nil
              · simp [hw, branchEvents]
                exact ih _ _ _ _
            | null =>
              simp [runFrom, hc, hsb, ha, hp]
              exact PairSeq.pair idx PairSeq.nil
            | bool b =>
              simp [runFrom, hc, hsb, ha, hp]
              exact PairSeq.pair idx PairSeq.nil
            | num n =>
              simp [runFrom, hc, hsb, ha, hp]
              exact PairSeq.pair idx PairSeq.nil
            | str s =>
              simp [runFrom, hc, hsb, ha, hp]
              exact PairSeq.pair idx PairSeq.nil
            | obj fields =>
              simp [runFrom, hc, hsb, ha, hp]
              exact PairSeq.pair idx PairSeq.nil
        · simp [runFrom, hc, hsb, ha]
          exact PairSeq.pair idx (ih _ _ _ _)

theorem resultsOf_eq {r : RunOut} {rs : List BranchResult} (h : r.res = .ok rs) :
    resultsOf r = rs := by
  simp [resultsOf, h]

theorem fanOut_res_ok {runs : List (Option RunOut)} (idx : Nat)
    (h : runs.any branchCancelled = false) :
    (fanOut runs idx).res = .ok ((runs.map branchResults).flatten) := by
  simp [fanOut, h, foldl_append_eq]

/-- Under a schedule in which the latch is never observed, no walk raises
`FlowCancelled`: its result is the `Except.ok` of its branch results. -/
theorem runFrom_res_ok (env : Env) (hnc : NoCancel env) :
    ∀ (rest : List Step) (idx : Nat) (prevOutput : String)
      (prevPath : Option FsPath) (currDir : FsPath),
      (runFrom env idx rest prevOutput prevPath currDir).res =
        Except.ok (resultsOf (runFrom env idx rest prevOutput prevPath currDir)) := by
  intro rest
  induction rest with
  | nil =>
    intro idx prev pp dir
    simp [runFrom, hnc.1, resultsOf]
  | cons step rest ih =>
    intro idx prev pp dir
    cases hsb : stepBody env idx step (assemblePrompt env step prev) prev dir with
    | error e => simp [runFrom, hnc.1, hsb, resultsOf]
    | ok op =>
      obtain ⟨output, path⟩ := op
      by_cases ha : step.array
      · cases hp : env.parse output with
        | none => simp [runFrom, hnc.1, hsb, ha, hp, resultsOf]
        | some j =>
          cases j with
          | arr items =>
            have hany : (items.enum.map (fun p =>
                if env.cancelWorker (dir ++ ["branch_" ++ toString p.1]) then none
                else some (runFrom env (idx + 1) rest (serializeItem env p.2) none
                  (dir ++ ["branch_" ++ toString p.1])))).any branchCancelled = false := by
              rw [List.any_eq_false]
              intro o ho
              obtain ⟨p, hp2, rfl⟩ := List.mem_map.mp ho
              simp [hnc.2, branchCancelled, ih (idx + 1) (serializeItem env p.2) none
                (dir ++ ["branch_" ++ toString p.1])]
            simp only [runFrom, hnc.1, hsb, ha, hp, Bool.false_eq_true, if_false, ite_true]
            rw [fanOut_res_ok idx hany, resultsOf_eq (fanOut_res_ok idx hany)]
          | null => simp [runFrom, hnc.1, hsb, ha, hp, resultsOf]
          | bool b => simp [runFrom, hnc.1, hsb, ha, hp, resultsOf]
          | num n => simp [runFrom, hnc.1, hsb, ha, hp, resultsOf]
          | str s => simp [runFrom, hnc.1, hsb, ha, hp, resultsOf]
          | obj fields => simp [runFrom, hnc.1, hsb, ha, hp, resultsOf]
      · simp only [runFrom, hnc.1, hsb, ha, Bool.false_eq_true, if_false, ite_true,
          ite_false]
        exact ih _ _ _ _

theorem branchResults_some (r : RunOut) : branchResults (some r) = resultsOf r := by
  obtain ⟨res, f, e⟩ := r
  cases res <;> rfl

theorem runFlow_events (env : Env) (cfg : List Step) (flowDir : FsPath) :
    (runFlow env cfg flowDir).events = (runFrom env 0 cfg "" none flowDir).events := by
  cases hres : (runFrom env 0 cfg "" none flowDir).res <;> simp [runFlow, hres]

theorem orchestrateBook_events_pairSeq (env : Env) (flows : List FlowSpec) :
    PairSeq (orchestrateBook env flows).events := by
  induction flows with
  | nil => exact PairSeq.nil
  | cons f flows ih =>
    simp only [orchestrateBook]
    refine PairSeq.append ?_ ih
    rw [runFlow_events]
    exact runFrom_events_pairSeq env f.cfg 0 "" none f.dir

/-! ### The claims -/

/-- C4: for every flow executed by `orchestrate`, `flow_failed.txt` is
written into the flow's directory iff the line the worker appends to
`finished.txt` for that flow starts with `failed` — on every completion
path, including the one where `_run_flow` raises `FlowCancelled`. -/
theorem flow_marker_iff_failed_line (env : Env) (cfg : List Step)
    (flowDir : FsPath) (interpolatedPaths : List String) :
    (runFlow env cfg flowDir).markerWritten = true ↔
      StartsWithFailed (workerRecord (runFlow env cfg flowDir) interpolatedPaths).line := by
  cases hres : (runFrom env 0 cfg "" none flowDir).res with
  | error u =>
    simp [runFlow, hres, workerRecord]
    exact startsWithFailed_finishedLine interpolatedPaths
  | ok rs =>
    cases hf : (runFrom env 0 cfg "" none flowDir).failed with
    | false =>
      simp [runFlow, hres, hf, workerRecord]
      exact not_startsWithFailed_doneLine interpolatedPaths
    | true =>
      simp [runFlow, hres, hf, workerRecord]
      exact startsWithFailed_finishedLine interpolatedPaths

/-- C6: in the sequential interleaving of the worker threads, every
`step_counts[i]` mutation is an increment under the step lock right before
the step's work paired with a decrement on its exit path, so the counter
value is non-negative after every prefix of the run's event trace and is
exactly 0 once all workers have been joined. -/
theorem step_counts_balanced (env : Env) (flows : List FlowSpec) (i n : Nat) :
    0 ≤ netCount (((orchestrateBook env flows).events).take n) i ∧
      netCount ((orchestrateBook env flows).events) i = 0 :=
  ⟨(orchestrateBook_events_pairSeq env flows).netCount_take_nonneg n i,
   (orchestrateBook_events_pairSeq env flows).netCount_eq_zero i⟩

/-- C1: when a step with `array = true` succeeds, its output is parsed as
JSON.  If the parse raises or yields a non-list, the step is treated as a
failure: the flow is marked failed and the branch returns the single
result with empty output and the error file `step_{i}_array.txt`.
Otherwise one `branch_{k}` directory per element is used under the current
directory, element `e_k` (passed through when a string, re-serialized
otherwise — the last two conjuncts) becomes that branch's `prev_output`,
each branch runs a fresh walk from the next step index, and after all
branch workers are joined the step returns the concatenation of their
results in branch order. -/
theorem array_step_fanout (env : Env) (hnc : NoCancel env) (idx : Nat) (step : Step)
    (rest : List Step) (prevOutput : String) (prevPath : Option FsPath)
    (currDir : FsPath) (harr : step.array = true) (output : String)
    (path : Option FsPath)
    (hbody : stepBody env idx step (assemblePrompt env step prevOutput) prevOutput currDir
      = .ok (output, path)) :
    ((∀ items, env.parse output ≠ some (JsonValue.arr items)) →
      runFrom env idx (step :: rest) prevOutput prevPath currDir =
        { res := .ok [("", some (errFilePath env currDir (stepFileName idx "array.txt")),
            currDir)],
          failed := true, events := [(true, idx), (false, idx)] }) ∧
    (∀ items, env.parse output = some (JsonValue.arr items) →
      resultsOf (runFrom env idx (step :: rest) prevOutput prevPath currDir) =
        (items.enum.map (fun p =>
          resultsOf (runFrom env (idx + 1) rest (serializeItem env p.2) none
            (currDir ++ ["branch_" ++ toString p.1])))).flatten) ∧
    (∀ s, serializeItem env (JsonValue.str s) = s) ∧
    (∀ j, (∀ s, j ≠ JsonValue.str s) → serializeItem env j = env.dumps j) := by
  refine ⟨?_, ?_, fun s => rfl, ?_⟩
  · intro hnoarr
    cases hp : env.parse output with
    | none => simp [runFrom, hnc.1, hbody, harr, hp]
    | some j =>
      cases j with
      | arr items => exact absurd hp (hnoarr items)
      | null => simp [runFrom, hnc.1, hbody, harr, hp]
      | bool b => simp [runFrom, hnc.1, hbody, harr, hp]
      | num n => simp [runFrom, hnc.1, hbody, harr, hp]
      | str s => simp [runFrom, hnc.1, hbody, harr, hp]
      | obj fields => simp [runFrom, hnc.1, hbody, harr, hp]
  · intro items hp
    have hany : (items.enum.map (fun p =>
        if env.cancelWorker (currDir ++ ["branch_" ++ toString p.1]) then none
        else some (runFrom env (idx + 1) rest (serializeItem env p.2) none
          (currDir ++ ["branch_" ++ toString p.1])))).any branchCancelled = false := by
      rw [List.any_eq_false]
      intro o ho
      obtain ⟨p, hp2, rfl⟩ := List.mem_map.mp ho
      simp [hnc.2, branchCancelled,
        runFrom_res_ok env hnc rest (idx + 1) (serializeItem env p.2) none
          (currDir ++ ["branch_" ++ toString p.1])]
    simp only [runFrom, hnc.1, hbody, harr, hp, Bool.false_eq_true, if_false, ite_true]
    rw [resultsOf_eq (fanOut_res_ok idx hany), List.map_map]
    congr 1
    refine List.map_congr_left ?_
    intro p hmem
    simp only [Function.comp, hnc.2, Bool.false_eq_true, if_false, ite_false]
    exact branchResults_some _
  · intro j hj
    cases j with
    | str s => exact absurd rfl (hj s)
    | null => rfl
    | bool b => rfl
    | num n => rfl
    | arr items => rfl
    | obj fields => rfl

/-- A concrete environment for exercising the array fan-out: the first
step's shell command emits a two-element JSON array, later steps echo
their stdin; `json.loads` accepts exactly that array text. -/
def envC1 : Env :=
  { trivEnv with
    runCmd := fun _ _ c s => .ok (if c == "emit" then "[\"a\",1]"
      else if c == "bad" then "notjson" else s)
    parse := fun s => if s == "[\"a\",1]" then
        some (JsonValue.arr [JsonValue.str "a", JsonValue.num 1])
      else none
    dumps := fun _ => "1" }

/-- A shell step marked `array` whose command emits a JSON array. -/
def stepEmit : Step := { cmd? := some "emit", array := true }

/-- A shell step marked `array` whose command emits non-JSON text. -/
def stepBad : Step := { cmd? := some "bad", array := true }

/-- A shell step that copies its stdin to its stdout. -/
def stepCat : Step := { cmd? := some "cat" }

theorem array_step_fanout_witness :
    resultsOf (runFrom envC1 0 [stepEmit, stepCat] "" none []) =
      (([JsonValue.str "a", JsonValue.num 1].enum.map (fun p =>
        resultsOf (runFrom envC1 1 [stepCat] (serializeItem envC1 p.2) none
          (([] : FsPath) ++ ["branch_" ++ toString p.1])))).flatten) ∧
    runFrom envC1 0 [stepBad, stepCat] "" none [] =
      { res := .ok [("", some ["errors", "run_tmp", "step_0_array.txt"], [])],
        failed := true, events := [(true, 0), (false, 0)] } := by
  constructor
  · exact (array_step_fanout envC1 ⟨fun _ _ => rfl, fun _ => rfl⟩ 0 stepEmit [stepCat]
      "" none [] rfl "[\"a\",1]" none rfl).2.1
      [JsonValue.str "a", JsonValue.num 1] rfl
  · exact (array_step_fanout envC1 ⟨fun _ _ => rfl, fun _ => rfl⟩ 0 stepBad [stepCat]
      "" none [] rfl "notjson" none rfl).1
      (fun items h => by simp [envC1] at h)

/-- C10: the shell backend is selected by the presence of the `cmd` key,
not by `type == "cmd"`: a step that is neither `codex` nor `openai` but
carries `cmd` dispatches to the shell, while a step of type `cmd` without
a `cmd` key dispatches to no backend — the walk quarantines the
`ValueError("Unknown step type")` as a step failure (flow marked failed,
empty output, error file `step_{i}_cmd.txt`). -/
theorem cmd_dispatch_by_key (env : Env) (step : Step) (dir : FsPath) :
    (step.type? ≠ some "codex" → step.type? ≠ some "openai" → step.cmd?.isSome = true →
      dispatch step = some Backend.shell) ∧
    (step.type? = some "cmd" → step.cmd? = none →
      dispatch step = none ∧
      (env.cancelAt dir 0 = false →
        runFrom env 0 [step] "" none dir =
          { res := .ok [("", some (errFilePath env dir (stepFileName 0 "cmd.txt")), dir)],
            failed := true, events := [(true, 0), (false, 0)] })) := by
  constructor
  · intro h1 h2 h3
    unfold dispatch
    rw [if_neg (by simpa using h1), if_neg (by simpa using h2), if_pos h3]
  · intro ht hcmd
    have hd : dispatch step = none := by
      unfold dispatch
      rw [ht, hcmd]
      rfl
    refine ⟨hd, fun hc => ?_⟩
    have hsb : stepBody env 0 step (assemblePrompt env step "") "" dir =
        .error { excName := "ValueError", msg := "Unknown step type: " ++ pyStr step.type? } := by
      unfold stepBody
      rw [hd]
    simp [runFrom, hc, hsb, ht, pyStr]

/-- A step whose type is `cmd` but which lacks a `cmd` key. -/
def stepTypeCmdNoKey : Step := { type? := some "cmd" }

theorem cmd_dispatch_by_key_witness :
    dispatch stepCat = some Backend.shell ∧
    dispatch stepTypeCmdNoKey = none ∧
    runFrom trivEnv 0 [stepTypeCmdNoKey] "" none [] =
      { res := .ok [("", some ["errors", "run_tmp", "step_0_cmd.txt"], [])],
        failed := true, events := [(true, 0), (false, 0)] } := by
  refine ⟨?_, ?_, ?_⟩
  · exact (cmd_dispatch_by_key trivEnv stepCat []).1 (by decide) (by decide) rfl
  · exact ((cmd_dispatch_by_key trivEnv stepTypeCmdNoKey []).2 rfl rfl).1
  · exact ((cmd_dispatch_by_key trivEnv stepTypeCmdNoKey []).2 rfl rfl).2 rfl

/-- C9: on a zero-exit codex CLI invocation, `run_codex_cli` returns the
contents of `final_message.txt` with its path when that file exists;
otherwise it reads the captured `stdout.txt`, copies it into
`final_message.txt`, also writes `time.txt` holding the return code and
the duration each followed by a newline, and returns the copied text with
the `final_message.txt` path; when neither file exists it raises
`FileNotFoundError`. -/
theorem codex_success_path (tmpdir : FsPath) (stderrText durationStr : String)
    (finalMessage? stdout? : Option String) :
    (∀ m, finalMessage? = some m →
      codexCompletion tmpdir 0 stderrText durationStr finalMessage? stdout? =
        .ok (m, tmpdir ++ ["final_message.txt"], {})) ∧
    (∀ s, finalMessage? = none → stdout? = some s →
      codexCompletion tmpdir 0 stderrText durationStr finalMessage? stdout? =
        .ok (s, tmpdir ++ ["final_message.txt"],
          { finalMessageWritten? := some s,
            timeWritten? := some (toString (0 : Int) ++ "\n" ++ durationStr ++ "\n") })) ∧
    (finalMessage? = none → stdout? = none →
      ∃ e, codexCompletion tmpdir 0 stderrText durationStr finalMessage? stdout? =
        .error e ∧ e.excName = "FileNotFoundError") := by
  refine ⟨?_, ?_, ?_⟩
  · intro m hm
    subst hm
    simp [codexCompletion]
  · intro s hm hs
    subst hm; subst hs
    simp [codexCompletion]
  · intro hm hs
    subst hm; subst hs
    exact ⟨{ excName := "FileNotFoundError",
             msg := "Codex CLI did not produce a final message file or stdout output" },
           by simp [codexCompletion], rfl⟩

theorem codex_success_path_witness :
    codexCompletion ["codex_exec_1"] 0 "" "2.5" (some "final") (some "streamed") =
      .ok ("final", ["codex_exec_1", "final_message.txt"], {}) ∧
    codexCompletion ["codex_exec_1"] 0 "" "2.5" none (some "streamed") =
      .ok ("streamed", ["codex_exec_1", "final_message.txt"],
        { finalMessageWritten? := some "streamed", timeWritten? := some "0\n2.5\n" }) ∧
    ∃ e, codexCompletion ["codex_exec_1"] 0 "" "2.5" none none = .error e ∧
      e.excName = "FileNotFoundError" := by
  refine ⟨?_, ?_, ?_⟩
  · exact (codex_success_path ["codex_exec_1"] "" "2.5" (some "final") (some "streamed")).1
      "final" rfl
  · exact (codex_success_path ["codex_exec_1"] "" "2.5" none (some "streamed")).2.1
      "streamed" rfl rfl
  · exact (codex_success_path ["codex_exec_1"] "" "2.5" none none).2.2 rfl rfl

/-- Whether a flow completed (did not raise `FlowCancelled`) and was
marked failed — exactly the flows for which `worker` increments
`failed_flows`. -/
def completedFailed (env : Env) (f : FlowSpec) : Bool :=
  !(runFlow env f.cfg f.dir).cancelled && (runFlow env f.cfg f.dir).failed

theorem countsAsFailedFlow_eq (env : Env) (f : FlowSpec) :
    (workerRecord (runFlow env f.cfg f.dir) f.interpolatedPaths).countsAsFailedFlow =
      completedFailed env f := by
  cases hc : (runFlow env f.cfg f.dir).cancelled <;>
    simp [workerRecord, completedFailed, hc]

theorem failedPathsEntry_eq (env : Env) (f : FlowSpec) :
    (match (workerRecord (runFlow env f.cfg f.dir) f.interpolatedPaths).failedPathsEntry
      with | some p => [p] | none => ([] : List (List String))) =
      if completedFailed env f && f.interpolatedPaths != [] then [f.interpolatedPaths]
      else [] := by
  cases hc : (runFlow env f.cfg f.dir).cancelled with
  | true => simp [workerRecord, completedFailed, hc]
  | false =>
    cases hf : (runFlow env f.cfg f.dir).failed with
    | false => simp [workerRecord, completedFailed, hc, hf]
    | true =>
      by_cases hp : f.interpolatedPaths = [] <;>
        simp [workerRecord, completedFailed, hc, hf, hp]

theorem book_failedFlowPaths (env : Env) (flows : List FlowSpec) :
    (orchestrateBook env flows).failedFlowPaths =
      (flows.filter (fun f => completedFailed env f && f.interpolatedPaths != [])).map
        FlowSpec.interpolatedPaths := by
  induction flows with
  | nil => rfl
  | cons f flows ih =>
    simp only [orchestrateBook, List.filter_cons]
    rw [failedPathsEntry_eq]
    by_cases hcf : (completedFailed env f && f.interpolatedPaths != []) = true
    · simp [hcf, ih]
    · simp [eq_false_of_ne_true hcf, ih]

theorem book_failedFlows_zero (env : Env) (flows : List FlowSpec) :
    ((orchestrateBook env flows).failedFlows = 0) ↔
      ∀ f ∈ flows, completedFailed env f = false := by
  induction flows with
  | nil => simp [orchestrateBook]
  | cons f flows ih =>
    simp only [orchestrateBook, List.mem_cons]
    rw [countsAsFailedFlow_eq]
    constructor
    · intro h g hg
      have h1 : (if completedFailed env f then 1 else 0) = 0 ∧
          (orchestrateBook env flows).failedFlows = 0 := by omega
      rcases hg with hg | hg
      · rw [hg]
        by_cases hcf : completedFailed env f = true
        · rw [hcf] at h1; simp at h1
        · exact eq_false_of_ne_true hcf
      · exact ih.mp h1.2 g hg
    · intro h
      rw [h f (Or.inl rfl)]
      simpa using ih.mpr fun g hg => h g (Or.inr hg)

/-- C5 (amended): the `failed_files` manifest has one comma-joined line
per flow that completed with `flow_failed` set and non-empty
`interpolated_paths`, in completion order.  A flow that ends by raising
`FlowCancelled` is recorded as `failed` in `finished.txt` but is not
appended to `failed_flow_paths` (nor counted in `failed_flows`), so it
contributes no manifest line. -/
theorem failed_files_lines_amended (env : Env) (flows : List FlowSpec) :
    failedFilesLines (orchestrateBook env flows) =
      (flows.filter (fun f => completedFailed env f && f.interpolatedPaths != [])).map
        (fun f => String.intercalate "," f.interpolatedPaths) := by
  unfold failedFilesLines
  by_cases h0 : (orchestrateBook env flows).failedFlows = 0
  · have hall := (book_failedFlows_zero env flows).mp h0
    have : (flows.filter (fun f => completedFailed env f && f.interpolatedPaths != [])) =
        [] := by
      rw [List.filter_eq_nil_iff]
      intro f hf
      simp [hall f hf]
    simp [h0, this]
  · have hne : ((orchestrateBook env flows).failedFlows == 0) = false := by
      simpa using h0
    rw [hne]
    simp only [Bool.false_eq_true, if_false, ite_false]
    rw [book_failedFlowPaths, List.map_map]
    rfl

/-- A step whose shell command exits non-zero. -/
def stepFail : Step := { cmd? := some "fail" }

/-- The environment of the cancellation counterexample: the `fail` command
exits 1, and the worker of the flow in directory `flowB` observes the
cancellation latch at its first step boundary (as happens when another
flow exhausts the failure budget while this one is in flight). -/
def envC5 : Env :=
  { trivEnv with
    cancelAt := fun d _ => d == ["flowB"]
    runCmd := fun _ _ c s =>
      if c == "fail" then
        .error { excName := "CalledProcessError", msg := "exit 1",
                 returncode? := some 1, stderrText? := some "" }
      else .ok s }

/-- A flow with interpolation provenance `a` whose only step fails. -/
def flowSpecA : FlowSpec := { cfg := [stepFail], interpolatedPaths := ["a"], dir := ["flowA"] }

/-- A flow with interpolation provenance `b` that is cancelled at its
first step boundary. -/
def flowSpecB : FlowSpec := { cfg := [stepCat], interpolatedPaths := ["b"], dir := ["flowB"] }

theorem failed_files_cancelled_flow_cex :
    (orchestrateBook envC5 [flowSpecA, flowSpecB]).finishedLines =
      [finishedLine "failed" ["a"], finishedLine "failed" ["b"]] ∧
    StartsWithFailed (finishedLine "failed" ["a"]) ∧
    StartsWithFailed (finishedLine "failed" ["b"]) ∧
    flowSpecA.interpolatedPaths ≠ [] ∧
    flowSpecB.interpolatedPaths ≠ [] ∧
    failedFilesLines (orchestrateBook envC5 [flowSpecA, flowSpecB]) = ["a"] ∧
    (failedFilesLines (orchestrateBook envC5 [flowSpecA, flowSpecB])).length ≠ 2 := by
  refine ⟨rfl, ⟨" a", rfl⟩, ⟨" b", rfl⟩, by decide, by decide, rfl, by decide⟩

/-- C2 (code evidence): the prompt assembly in `run_from` never consults a
step's `inputs` key — two steps differing only in `inputs` assemble the
same prompt — and on the configuration of the repository's own test
(`test_openai_response_buckets_parsing`: an `inputs` list referencing the
bucket outputs of step 0) the assembled prompt is the implicit
`prev_output` concatenation, not the inputs-resolved text. -/
theorem inputs_ignored_in_prompt_assembly :
    (∀ (env : Env) (step : Step) (prev : String) (i1 i2 : Option (List String)),
      assemblePrompt env { step with inputs? := i1 } prev =
        assemblePrompt env { step with inputs? := i2 } prev) ∧
    assemblePrompt trivEnv
      { type? := some "openai", prompt := "Followup",
        inputs? := some ["step_0.summary", "step_0.code"] } "Primary" =
      "Followup" ++ "\n" ++ "Primary" := by
  constructor
  · intro env step prev i1 i2
    cases step
    rfl
  · rfl

/-- The first step of the repository's `test_flow_exits_on_empty_response`
configuration: a shell step with `exit_on_empty_response` set whose
command prints nothing. -/
def stepEmpty : Step :=
  { type? := some "cmd", cmd? := some "emptycmd", exitOnEmptyResponse := true,
    name? := some "empty_step" }

/-- The second step of that configuration: a shell command with an
observable effect. -/
def stepSentinel : Step := { type? := some "cmd", cmd? := some "writesentinel" }

/-- An environment in which the first command prints nothing and the
second prints `done`. -/
def envC3 : Env :=
  { trivEnv with
    runCmd := fun _ _ c _ => .ok (if c == "emptycmd" then "" else "done") }

/-- C3 (code evidence): `run_from` in src/orchestrator.py never reads
`exit_on_empty_response`.  On the configuration of the repository's own
test, the first step's output is empty, yet the walk continues: the second
step's counter events appear and its output `done` is the branch result —
there is no early exit and no log file. -/
theorem exit_on_empty_response_ignored :
    stepEmpty.exitOnEmptyResponse = true ∧
    runFrom envC3 0 [stepEmpty, stepSentinel] "" none [] =
      { res := .ok [("done", none, [])], failed := false,
        events := [(true, 0), (false, 0), (true, 1), (false, 1)] } :=
  ⟨rfl, rfl⟩

/-- C7 (code evidence): the entry validation of `orchestrate` accepts a
call exactly when `max_flow_failures ≥ 1`; it examines nothing else.  In
particular the function has no `max_flows` parameter to validate (compare
`test_orchestrate_rejects_negative_max_flows`, which expects a call with
`max_flows=-1` to raise `ValueError`). -/
theorem orchestrate_entry_check_only_max_flow_failures (mff : Int) :
    (orchestrateEntryCheck mff = .ok ()) ↔ 1 ≤ mff := by
  unfold orchestrateEntryCheck
  by_cases h : mff < 1
  · simp only [h, if_true, ite_true]
    constructor
    · intro hcontra; exact absurd hcontra (by simp)
    · intro hge; omega
  · simp only [h, if_false, ite_false]
    constructor
    · intro _; omega
    · intro _; trivial

/-- C8 (code evidence): with `web_search=True`, `call_openai_api` sends
exactly one tools entry, the literal dictionary whose `type` is
`web_search` — not a typed tool object and not `web_search_preview` as
the spec and the repository's own tests
(`test_call_openai_api_uses_preview_tool_with_type` and
`..._without_type`) require; with `web_search=False` no `tools` argument
is sent. -/
theorem web_search_sends_web_search_literal (prompt : String)
    (model? reasoningEffort? serviceTier? : Option String) :
    (buildOpenAIRequest prompt true model? reasoningEffort? serviceTier?).tools? =
      some ["web_search"] ∧
    (buildOpenAIRequest prompt false model? reasoningEffort? serviceTier?).tools? = none ∧
    ("web_search" : String) ≠ "web_search_preview" :=
  ⟨rfl, rfl, by decide⟩
